import Mathlib

/-!
Shallow embedding of the `FuzzySearchService` from
`internal/services/fuzzy_search.go` (a Go multi-tenant SaaS backend).

Modelling conventions:
* Go `float64` score arithmetic is modelled with exact rationals (`ℚ`);
  every claim settled here is an order/sign/equality property whose truth
  does not depend on rounding.
* Go strings are modelled as Lean `String`s (sequences of Unicode scalars);
  Go `len` (bytes) coincides with the scalar count on the ASCII data used in
  all witnesses and counterexamples.
* Go `map[string]X` registries are modelled as association lists in insertion
  order with insert-or-replace update (`upsert`); Go map iteration order is
  unspecified, the model fixes insertion order.
* The relational store is an external collaborator: it is modelled as an
  oracle `Db` from the query description the engine builds (`EntityQuery`,
  mirroring exactly what `searchEntity` hands to gorm) to either a row list
  or a query-execution error.
* A Go runtime panic (out-of-range slice index in `Search`'s pagination) is
  modelled as `Option.none`.
* `time.Time` fields (`CreatedAt`/`UpdatedAt`, `ExecutionTime`) are not
  modelled: no claim mentions them.
-/

/- Batteries marks the `Rat` arithmetic primitives `@[irreducible]`, which
blocks `decide`-style evaluation of concrete scores; restore the default
reducibility for this file so witnesses and counterexamples can be checked
by evaluation. -/
attribute [local semireducible] Rat.add Rat.mul Rat.sub Rat.inv Rat.ofScientific

/-- Row returned by the store: `map[string]interface{}` with values modelled
by their `fmt.Sprintf("%v", ·)` rendering. A missing key renders as `""`
via `getField`. -/
def Row : Type := List (String × String)

instance : DecidableEq Row := by
  unfold Row; infer_instance

deriving instance DecidableEq for Except

/-- `FuzzySearchConfig` (fuzzy_search.go). Go `int` fields are `Int`,
`float64` fields are `ℚ`. -/
structure FuzzySearchConfig where
  minSearchLength : Int
  maxResults : Int
  scoreThreshold : ℚ
  enableHighlight : Bool
  caseSensitive : Bool
  exactMatchBoost : ℚ
  prefixMatchBoost : ℚ
  enableStemming : Bool
  enableSynonyms : Bool
deriving DecidableEq

/-- `DefaultFuzzySearchConfig` (fuzzy_search.go). -/
def defaultFuzzySearchConfig : FuzzySearchConfig where
  minSearchLength := 2
  maxResults := 50
  scoreThreshold := 1/10
  enableHighlight := true
  caseSensitive := false
  exactMatchBoost := 2
  prefixMatchBoost := 3/2
  enableStemming := false
  enableSynonyms := false

/-- `FieldConfig` (fuzzy_search.go). -/
structure FieldConfig where
  name : String
  weight : ℚ
  searchType : String
  boost : ℚ
  analyzer : String := ""
  required : Bool := false
  minLength : Int := 0
  transform : String := ""
deriving DecidableEq

/-- `JoinConfig` (fuzzy_search.go). -/
structure JoinConfig where
  table : String
  condition : String
  type : String
  searchIn : Bool := false
deriving DecidableEq

/-- `PermissionConfig` (fuzzy_search.go). -/
structure PermissionConfig where
  requireAuth : Bool := false
  allowedRoles : List String := []
  ownershipField : String := ""
  tenantField : String := ""
deriving DecidableEq

/-- `EntityConfig` (fuzzy_search.go). `MetaData` values are modelled by
their string rendering. -/
structure EntityConfig where
  tableName : String
  displayName : String := ""
  searchFields : List FieldConfig
  selectFields : List String := []
  joinTables : List JoinConfig := []
  whereClause : String := ""
  orderBy : String := ""
  groupBy : String := ""
  permissions : PermissionConfig := {}
  metaData : List (String × String) := []
deriving DecidableEq

/-- `SearchOptions` (fuzzy_search.go). `UserID`/`TenantID` are `*uint`. -/
structure SearchOptions where
  query : String
  entityTypes : List String := []
  filters : List (String × String) := []
  sortBy : String := ""
  sortOrder : String := ""
  offset : Int := 0
  limit : Int := 0
  userId : Option Nat := none
  tenantId : Option Nat := none
  includeCount : Bool := false
  includeAggregations : Bool := false
  highlightFields : List String := []
deriving DecidableEq

/-- `SearchResult` (fuzzy_search.go). `ID` is `interface{}`; it is set only
when the row has an `id` key, hence `Option`. -/
structure SearchResult where
  id : Option String
  type : String
  title : String
  description : String
  url : String
  score : ℚ
  highlights : List String
  data : Row
  metaData : List (String × String)
deriving DecidableEq

/-- `SearchResponse` (fuzzy_search.go), without the unmodelled
`ExecutionTime`/`Aggregations` (the latter is never assigned by `Search`). -/
structure SearchResponse where
  query : String
  total : Nat
  results : List SearchResult
  categories : List (String × Nat)
  suggestions : List String
deriving DecidableEq

/-- The `FuzzySearchService` state: the config singleton and the entity
registry (`map[string]EntityConfig`, modelled as an insertion-ordered
association list with unique keys maintained by `upsert`). -/
structure ServiceState where
  config : FuzzySearchConfig
  entities : List (String × EntityConfig)
deriving DecidableEq

/-- Go map assignment `m[k] = v`: replace the entry if the key is present,
append otherwise. -/
def upsert (l : List (String × α)) (k : String) (v : α) : List (String × α) :=
  if l.any (fun p => p.1 = k) then
    l.map (fun p => if p.1 = k then (k, v) else p)
  else
    l ++ [(k, v)]

/-- `RegisterEntity` (fuzzy_search.go): `s.entities[entityType] = config`. -/
def RegisterEntity (s : ServiceState) (entityType : String) (config : EntityConfig) :
    ServiceState :=
  { s with entities := upsert s.entities entityType config }

/-- `GetEntityTypes` (fuzzy_search.go): returns the registry. -/
def GetEntityTypes (s : ServiceState) : List (String × EntityConfig) :=
  s.entities

/-- `GetConfig` (fuzzy_search.go). -/
def GetConfig (s : ServiceState) : FuzzySearchConfig :=
  s.config

/-- `UpdateConfig` (fuzzy_search.go): wholesale replacement, no validation. -/
def UpdateConfig (s : ServiceState) (config : FuzzySearchConfig) : ServiceState :=
  { s with config := config }

/-- `getField` helper (fuzzy_search.go): the row value rendered as a string,
`""` when absent. -/
def getField (row : Row) (field : String) : String :=
  match List.lookup field row with
  | some v => v
  | none => ""

/-- `strings.ToLower` (kernel-computable character-map implementation). -/
def goToLower (s : String) : String :=
  ⟨s.data.map Char.toLower⟩

/-- `strings.ToUpper` (kernel-computable character-map implementation). -/
def goToUpper (s : String) : String :=
  ⟨s.data.map Char.toUpper⟩

/-- `strings.TrimSpace`: drop leading and trailing whitespace. -/
def goTrimSpace (s : String) : String :=
  ⟨((s.data.dropWhile Char.isWhitespace).reverse.dropWhile Char.isWhitespace).reverse⟩

/-- Accumulator loop for `strings.Fields`: split at whitespace runs. -/
def fieldsAux (acc : List Char) : List Char → List String
  | [] => if acc.isEmpty then [] else [⟨acc.reverse⟩]
  | c :: cs =>
    if c.isWhitespace then
      if acc.isEmpty then fieldsAux [] cs
      else (⟨acc.reverse⟩ : String) :: fieldsAux [] cs
    else fieldsAux (c :: acc) cs

/-- `strings.Fields`: split on whitespace, dropping empty pieces. -/
def goFields (s : String) : List String :=
  fieldsAux [] s.data

/-- `tokenizeQuery` (fuzzy_search.go): `strings.Fields(strings.TrimSpace(q))`
filtered to terms of length ≥ `minSearchLength`. -/
def tokenizeQuery (cfg : FuzzySearchConfig) (query : String) : List String :=
  (goFields (goTrimSpace query)).filter
    (fun term => cfg.minSearchLength ≤ (term.length : Int))

/-- `calculateFuzzyScore` (fuzzy_search.go): character-overlap heuristic.
Terms shorter than 3 characters score 0; otherwise the fraction of the
term's characters that occur in the text, floored to 0 below 1/2 and scaled
by 1/2. -/
def calculateFuzzyScore (text term : String) : ℚ :=
  if term.length < 3 then 0
  else
    let hits := (term.data.filter (fun c => text.data.contains c)).length
    let overlap : ℚ := (hits : ℚ) / (term.length : ℚ)
    if overlap < 1/2 then 0 else overlap * (1/2)

/-- The character-overlap fraction used by `calculateFuzzyScore` (the number
of characters of `term` occurring in `text`, over the length of `term`). -/
def charOverlap (text term : String) : ℚ :=
  ((term.data.filter (fun c => text.data.contains c)).length : ℚ) / (term.length : ℚ)

/-- The per-term branch of `calculateFieldScore` (fuzzy_search.go): both
arguments are the already-lowercased field value and term. Exact match →
`exactMatchBoost`; prefix → `prefixMatchBoost`; substring → 1; otherwise the
fuzzy heuristic. -/
def termScore (cfg : FuzzySearchConfig) (valueLower termLower : String) : ℚ :=
  if valueLower = termLower then cfg.exactMatchBoost
  else if termLower.data.isPrefixOf valueLower.data then cfg.prefixMatchBoost
  else if List.IsInfix termLower.data valueLower.data then 1
  else calculateFuzzyScore valueLower termLower

/-- `calculateFieldScore` (fuzzy_search.go): lowercase the value, take the
running maximum (starting from 0) over the terms of the branch score times
`(1 + boost)`. -/
def calculateFieldScore (cfg : FuzzySearchConfig) (field : FieldConfig)
    (fieldValue : String) (searchTerms : List String) : ℚ :=
  let valueLower := goToLower fieldValue
  searchTerms.foldl
    (fun maxScore term =>
      let score := termScore cfg valueLower (goToLower term) * (1 + field.boost)
      if score > maxScore then score else maxScore)
    0

/-- `calculateRelevanceScore` (fuzzy_search.go): weighted sum over the
search fields of the field score; empty query or empty rendered field value
contribute 0. -/
def calculateRelevanceScore (cfg : FuzzySearchConfig) (fields : List FieldConfig)
    (row : Row) (query : String) : ℚ :=
  if query = "" then 0
  else
    let searchTerms := tokenizeQuery cfg query
    fields.foldl
      (fun totalScore field =>
        let fieldValue := getField row field.name
        if fieldValue = "" then totalScore
        else totalScore + calculateFieldScore cfg field fieldValue searchTerms * field.weight)
      0

/-- `strings.ReplaceAll` on character lists: replace leftmost non-overlapping
occurrences of the nonempty pattern `p :: ps`. Structural recursion on a fuel
bound (each step consumes at least one character, so any fuel at or above the
input length is exact). -/
def replaceAllAux (p : Char) (ps rep : List Char) : Nat → List Char → List Char
  | _, [] => []
  | 0, l => l
  | fuel + 1, c :: rest =>
    if (p :: ps).isPrefixOf (c :: rest) then
      rep ++ replaceAllAux p ps rep fuel (rest.drop ps.length)
    else
      c :: replaceAllAux p ps rep fuel rest

/-- `strings.ReplaceAll` (the empty-pattern case never arises here: query
terms are nonempty). -/
def strReplaceAll (s pat rep : String) : String :=
  match pat.data with
  | [] => s
  | p :: ps => ⟨replaceAllAux p ps rep.data s.data.length s.data⟩

/-- Go `strings.Contains` on the model's strings. -/
def strContains (s sub : String) : Bool :=
  if List.IsInfix sub.data s.data then true else false

/-- `highlightText` (fuzzy_search.go): for each term, in the case-insensitive
configuration the code *checks* for the term case-insensitively but then
*replaces* the original-case term with `strings.ReplaceAll`. -/
def highlightText (cfg : FuzzySearchConfig) (text : String) (terms : List String) : String :=
  terms.foldl
    (fun highlighted term =>
      if !cfg.caseSensitive then
        if strContains (goToLower highlighted) (goToLower term) then
          strReplaceAll highlighted term ("<mark>" ++ term ++ "</mark>")
        else highlighted
      else
        strReplaceAll highlighted term ("<mark>" ++ term ++ "</mark>"))
    text

/-- `generateHighlights` (fuzzy_search.go): collect the highlighted form of
each search field's rendered value, keeping only fields whose highlighted
form differs from the original. -/
def generateHighlights (cfg : FuzzySearchConfig) (fields : List FieldConfig)
    (row : Row) (query : String) : List String :=
  let searchTerms := tokenizeQuery cfg query
  fields.foldl
    (fun highlights field =>
      let fieldValue := getField row field.name
      if fieldValue = "" then highlights
      else
        let highlighted := highlightText cfg fieldValue searchTerms
        if highlighted ≠ fieldValue then highlights ++ [highlighted] else highlights)
    []

/-- `buildTitleDescription` (fuzzy_search.go): the per-entity-type switch. -/
def buildTitleDescription (entityType : String) (row : Row) : String × String :=
  if entityType = "users" then
    (goTrimSpace (getField row "first_name" ++ " " ++ getField row "last_name"),
     "Email: " ++ getField row "email")
  else if entityType = "customers" then
    (getField row "name",
     let description := "Email: " ++ getField row "email"
     if getField row "company" ≠ "" then
       description ++ " | Company: " ++ getField row "company"
     else description)
  else if entityType = "contacts" then
    (getField row "name", "Subject: " ++ getField row "subject")
  else if entityType = "plans" then
    (getField row "name",
     "Price: " ++ getField row "price" ++ " " ++ getField row "currency")
  else if entityType = "emails" then
    (getField row "subject",
     "To: " ++ getField row "to_email" ++ " | Status: " ++ getField row "status")
  else
    if getField row "name" ≠ "" then
      (getField row "name", entityType ++ " record")
    else if getField row "title" ≠ "" then
      (getField row "title", entityType ++ " record")
    else
      (entityType ++ " #" ++ getField row "id", "")

/-- `buildURL` (fuzzy_search.go). -/
def buildURL (entityType : String) (id : Option String) : String :=
  match id with
  | none => ""
  | some v => "/api/v1/" ++ entityType ++ "/" ++ v

/-- `convertToSearchResult` (fuzzy_search.go). -/
def convertToSearchResult (cfg : FuzzySearchConfig) (entityType : String)
    (config : EntityConfig) (row : Row) (options : SearchOptions) : SearchResult :=
  let id := List.lookup "id" row
  let td := buildTitleDescription entityType row
  { id := id
    type := entityType
    title := td.1
    description := td.2
    url := buildURL entityType id
    score := calculateRelevanceScore cfg config.searchFields row options.query
    highlights :=
      if cfg.enableHighlight then generateHighlights cfg config.searchFields row options.query
      else []
    data := row
    metaData := config.metaData }

/-- `buildFuzzyPattern` (fuzzy_search.go): interleave `.*?` between the
characters of terms longer than 3. -/
def buildFuzzyPattern (term : String) : String :=
  if term.length ≤ 3 then term
  else String.intercalate ".*?" (term.data.map (fun c => String.singleton c))

/-- `buildFieldCondition` (fuzzy_search.go): one SQL fragment per
(field, term) pair, `""` when the term is shorter than the field's
`minLength`. -/
def buildFieldCondition (cfg : FuzzySearchConfig) (field : FieldConfig) (term : String) :
    String :=
  if (term.length : Int) < field.minLength then ""
  else
    let fieldName := if !cfg.caseSensitive then "LOWER(" ++ field.name ++ ")" else field.name
    let searchTerm := if !cfg.caseSensitive then goToLower term else term
    if field.searchType = "exact" then
      fieldName ++ " = " ++ "'" ++ searchTerm ++ "'"
    else if field.searchType = "prefix" then
      fieldName ++ " LIKE " ++ "'" ++ searchTerm ++ "%'"
    else if field.searchType = "contains" then
      fieldName ++ " LIKE " ++ "'%" ++ searchTerm ++ "%'"
    else if field.searchType = "fulltext" then
      "to_tsvector('english', " ++ field.name ++ ") @@ plainto_tsquery('english', '"
        ++ searchTerm ++ "')"
    else if field.searchType = "fuzzy" then
      fieldName ++ " SIMILAR TO " ++ "'" ++ buildFuzzyPattern searchTerm ++ "'"
    else
      fieldName ++ " LIKE " ++ "'%" ++ searchTerm ++ "%'"

/-- `buildSearchConditions` (fuzzy_search.go): OR-join the nonempty per-pair
conditions, parenthesised; `""` for an empty query or no valid pair. -/
def buildSearchConditions (cfg : FuzzySearchConfig) (fields : List FieldConfig)
    (searchQuery : String) : String :=
  if searchQuery = "" then ""
  else
    let searchTerms := tokenizeQuery cfg searchQuery
    let conditions :=
      (fields.flatMap (fun field =>
        searchTerms.map (fun term => buildFieldCondition cfg field term))).filter
        (fun c => c ≠ "")
    if conditions = [] then ""
    else "(" ++ String.intercalate " OR " conditions ++ ")"

/-- The join SQL fragment built by `searchEntity` for one `JoinConfig`. -/
def joinClause (join : JoinConfig) : String :=
  if goToUpper join.type = "LEFT" then
    "LEFT JOIN " ++ join.table ++ " ON " ++ join.condition
  else if goToUpper join.type = "RIGHT" then
    "RIGHT JOIN " ++ join.table ++ " ON " ++ join.condition
  else
    "INNER JOIN " ++ join.table ++ " ON " ++ join.condition

/-- Everything `searchEntity` (fuzzy_search.go) hands to the store for one
entity: table, join clauses, static where clause, tenant/ownership equality
filters, caller filters, the OR-combined search condition string, projection
and ordering/grouping. The store itself is external. -/
structure EntityQuery where
  tableName : String
  joins : List String
  whereClause : String
  tenantFilter : Option (String × Nat)
  userFilter : Option (String × Nat)
  filters : List (String × String)
  searchConditions : String
  selectFields : List String
  orderBy : String
  groupBy : String
deriving DecidableEq

/-- The query `searchEntity` builds from an `EntityConfig` and the caller's
`SearchOptions`. -/
def buildEntityQuery (cfg : FuzzySearchConfig) (config : EntityConfig)
    (options : SearchOptions) : EntityQuery where
  tableName := config.tableName
  joins := config.joinTables.map joinClause
  whereClause := config.whereClause
  tenantFilter :=
    match options.tenantId with
    | some tid =>
      if config.permissions.tenantField ≠ "" then some (config.permissions.tenantField, tid)
      else none
    | none => none
  userFilter :=
    match options.userId with
    | some uid =>
      if config.permissions.ownershipField ≠ "" then
        some (config.permissions.ownershipField, uid)
      else none
    | none => none
  filters := options.filters
  searchConditions := buildSearchConditions cfg config.searchFields options.query
  selectFields := config.selectFields
  orderBy := config.orderBy
  groupBy := config.groupBy

/-- The external relational store: answers one built query with rows or a
query-execution error. -/
def Db : Type := EntityQuery → Except Unit (List Row)

/-- `searchEntity` (fuzzy_search.go): execute the built query, convert each
row, keep rows whose score reaches `scoreThreshold`. -/
def searchEntity (s : ServiceState) (db : Db) (entityType : String)
    (config : EntityConfig) (options : SearchOptions) : Except Unit (List SearchResult) :=
  (db (buildEntityQuery s.config config options)).map
    (fun rows =>
      (rows.map (fun row => convertToSearchResult s.config entityType config row options)).filter
        (fun result => s.config.scoreThreshold ≤ result.score))

/-- The per-entity loop of `Search` (fuzzy_search.go): unknown entity types
and failing entity queries are skipped; results are concatenated in
iteration order, and `categories[entityType]` is set to the entity's result
count. -/
def collectLoop (s : ServiceState) (db : Db) (options : SearchOptions) :
    List String → List SearchResult × List (String × Nat)
  | [] => ([], [])
  | t :: ts =>
    let rest := collectLoop s db options ts
    match List.lookup t s.entities with
    | none => rest
    | some config =>
      match searchEntity s db t config options with
      | Except.error _ => rest
      | Except.ok results => (results ++ rest.1, upsert rest.2 t results.length)

/-- The inner loop of `sortResults` (fuzzy_search.go) for one outer index:
scan the tail, swapping the current element into the scanned position
whenever its score is smaller; returns the final current element (the
running maximum) and the updated tail. -/
def selectMax (x : SearchResult) : List SearchResult → SearchResult × List SearchResult
  | [] => (x, [])
  | y :: ys =>
    if x.score < y.score then
      let r := selectMax y ys
      (r.1, x :: r.2)
    else
      let r := selectMax x ys
      (r.1, y :: r.2)

theorem selectMax_snd_length (x : SearchResult) (ys : List SearchResult) :
    (selectMax x ys).2.length = ys.length := by
  induction ys generalizing x with
  | nil => simp [selectMax]
  | cons y ys ih =>
    simp only [selectMax]
    split <;> simp [ih]

/-- The double swap loop of `sortResults` (fuzzy_search.go), as a recursion
on lists: place the running maximum first, recurse on the updated tail.
Structural recursion on a fuel bound; `selectMax` preserves the tail length,
so any fuel at or above the input length is exact. -/
def selSortFuel : Nat → List SearchResult → List SearchResult
  | _, [] => []
  | 0, l => l
  | fuel + 1, x :: xs =>
    let r := selectMax x xs
    r.1 :: selSortFuel fuel r.2

/-- The swap-loop sort at its exact fuel. -/
def selSort (l : List SearchResult) : List SearchResult :=
  selSortFuel l.length l

/-- `sortResults` (fuzzy_search.go): sort by score descending when no custom
sort is requested, otherwise return the list unchanged. -/
def sortResults (results : List SearchResult) (options : SearchOptions) :
    List SearchResult :=
  if options.sortBy = "" ∨ options.sortBy = "score" then selSort results
  else results

/-- `generateSuggestions` (fuzzy_search.go): fixed texts plus one
"Search in {DisplayName}" entry per registered entity. -/
def generateSuggestions (s : ServiceState) (query : String) : List String :=
  ["Try using different keywords", "Check your spelling", "Use more general terms",
   "Try searching in specific categories"]
    ++ s.entities.map (fun p => "Search in " ++ p.2.displayName)

/-- The pagination step of `Search` (fuzzy_search.go): `offset ≥ total`
yields the empty page, otherwise the Go slice `allResults[offset:end]` with
`end = min (offset+limit) total`; a Go slice-bounds panic (negative offset,
or `end < offset`) is `none`. -/
def paginate (l : List SearchResult) (offset limit : Int) : Option (List SearchResult) :=
  let total : Int := l.length
  if offset ≥ total then some []
  else
    let stop := if offset + limit > total then total else offset + limit
    if 0 ≤ offset ∧ offset ≤ stop then
      some ((l.drop offset.toNat).take (stop - offset).toNat)
    else none

/-- The entity-type list `Search` (fuzzy_search.go) iterates: the caller's
list, defaulted to every registered entity type when empty. -/
def effectiveEntityTypes (s : ServiceState) (options : SearchOptions) : List String :=
  if options.entityTypes = [] then s.entities.map (fun p => p.1)
  else options.entityTypes

/-- The limit normalisation in `Search` (fuzzy_search.go): a non-positive or
too-large caller limit is silently replaced with `config.maxResults`. -/
def effectiveLimit (s : ServiceState) (options : SearchOptions) : Int :=
  if options.limit ≤ 0 ∨ options.limit > s.config.maxResults then s.config.maxResults
  else options.limit

/-- `Search` (fuzzy_search.go): guard on the trimmed query length, default
the entity-type list to the whole registry, normalise the limit, run the
per-entity loop, sort, paginate, and attach suggestions to empty pages.
`total` is the candidate count before pagination. -/
def Search (s : ServiceState) (db : Db) (options : SearchOptions) :
    Option SearchResponse :=
  if ((goTrimSpace options.query).length : Int) < s.config.minSearchLength then
    some { query := options.query, total := 0, results := [], categories := [],
           suggestions := [] }
  else
    let collected := collectLoop s db options (effectiveEntityTypes s options)
    let sorted := sortResults collected.1 options
    (paginate sorted options.offset (effectiveLimit s options)).map
      (fun page =>
        { query := options.query
          total := sorted.length
          results := page
          categories := collected.2
          suggestions := if page = [] then generateSuggestions s options.query else [] })

/-! ### Registry lemmas (`upsert`) -/

theorem upsert_of_mem (l : List (String × α)) (k : String) (v : α)
    (h : k ∈ l.map Prod.fst) :
    upsert l k v = l.map (fun p => if p.1 = k then (k, v) else p) := by
  have : l.any (fun p => p.1 = k) = true := by
    simp only [List.any_eq_true, decide_eq_true_eq]
    rcases List.mem_map.mp h with ⟨p, hp, hk⟩
    exact ⟨p, hp, hk⟩
  simp [upsert, this]

theorem upsert_of_not_mem (l : List (String × α)) (k : String) (v : α)
    (h : k ∉ l.map Prod.fst) :
    upsert l k v = l ++ [(k, v)] := by
  have : l.any (fun p => p.1 = k) = false := by
    simp only [List.any_eq_false, decide_eq_true_eq]
    intro p hp hk
    exact h (List.mem_map.mpr ⟨p, hp, hk⟩)
  simp [upsert, this]

theorem upsert_fst_of_mem (l : List (String × α)) (k : String) (v : α)
    (h : k ∈ l.map Prod.fst) :
    (upsert l k v).map Prod.fst = l.map Prod.fst := by
  rw [upsert_of_mem l k v h, List.map_map]
  apply List.map_congr_left
  intro p _
  by_cases hp : p.1 = k
  · simp [hp]
  · simp [hp]

theorem upsert_fst_of_not_mem (l : List (String × α)) (k : String) (v : α)
    (h : k ∉ l.map Prod.fst) :
    (upsert l k v).map Prod.fst = l.map Prod.fst ++ [k] := by
  rw [upsert_of_not_mem l k v h]
  simp

theorem upsert_lookup (l : List (String × α)) (k : String) (v : α) :
    List.lookup k (upsert l k v) = some v := by
  by_cases h : k ∈ l.map Prod.fst
  · rw [upsert_of_mem l k v h]
    induction l with
    | nil => simp at h
    | cons p t ih =>
      obtain ⟨pk, pv⟩ := p
      by_cases hp : pk = k
      · simp [List.lookup_cons, hp]
      · have ht : k ∈ t.map Prod.fst := by
          rcases List.mem_map.mp h with ⟨q, hq, hk⟩
          rcases List.mem_cons.mp hq with rfl | hq'
          · exact absurd hk hp
          · exact List.mem_map.mpr ⟨q, hq', hk⟩
        have hne : (k == pk) = false :=
          beq_false_of_ne (fun hkp => hp hkp.symm)
        have hp' : ¬((pk, pv).1 = k) := hp
        simp only [List.map_cons, if_neg hp', List.lookup_cons, hne, cond_false]
        exact ih ht
  · rw [upsert_of_not_mem l k v h]
    induction l with
    | nil => simp [List.lookup_cons]
    | cons p t ih =>
      obtain ⟨pk, pv⟩ := p
      have hp : pk ≠ k := by
        intro hk
        exact h (List.mem_map.mpr ⟨(pk, pv), List.mem_cons_self _ t, hk⟩)
      have hne : (k == pk) = false :=
        beq_false_of_ne (fun hkp => hp hkp.symm)
      have ht : k ∉ t.map Prod.fst := by
        intro hm
        rcases List.mem_map.mp hm with ⟨q, hq, hk⟩
        exact h (List.mem_map.mpr ⟨q, List.mem_cons_of_mem _ hq, hk⟩)
      simp only [List.cons_append, List.lookup_cons, hne, cond_false]
      exact ih ht

theorem mem_fst_upsert (l : List (String × α)) (k : String) (v : α) :
    k ∈ (upsert l k v).map Prod.fst := by
  by_cases h : k ∈ l.map Prod.fst
  · rw [upsert_fst_of_mem l k v h]; exact h
  · rw [upsert_fst_of_not_mem l k v h]; simp

theorem upsert_nodup (l : List (String × α)) (k : String) (v : α)
    (h : (l.map Prod.fst).Nodup) :
    ((upsert l k v).map Prod.fst).Nodup := by
  by_cases hm : k ∈ l.map Prod.fst
  · rw [upsert_fst_of_mem l k v hm]; exact h
  · rw [upsert_fst_of_not_mem l k v hm]
    simpa using (List.nodup_append.mpr ⟨h, List.nodup_singleton k, by simpa using hm⟩)

theorem upsert_count_eq_one (l : List (String × α)) (k : String) (v : α)
    (h : (l.map Prod.fst).Nodup) :
    ((upsert l k v).map Prod.fst).count k = 1 :=
  List.count_eq_one_of_mem (upsert_nodup l k v h) (mem_fst_upsert l k v)

/-! ### The swap-loop sort of `sortResults` -/

theorem selectMax_perm (x : SearchResult) (ys : List SearchResult) :
    List.Perm (x :: ys) ((selectMax x ys).1 :: (selectMax x ys).2) := by
  induction ys generalizing x with
  | nil => simp [selectMax]
  | cons y ys ih =>
    by_cases hlt : x.score < y.score
    · simp only [selectMax, if_pos hlt]
      exact (List.Perm.cons x (ih y)).trans (List.Perm.swap _ _ _)
    · simp only [selectMax, if_neg hlt]
      exact ((List.Perm.swap y x ys).trans (List.Perm.cons y (ih x))).trans
        (List.Perm.swap _ _ _)

theorem selectMax_fst_ge (x : SearchResult) (ys : List SearchResult) :
    x.score ≤ (selectMax x ys).1.score ∧
      ∀ z ∈ (selectMax x ys).2, z.score ≤ (selectMax x ys).1.score := by
  induction ys generalizing x with
  | nil => simp [selectMax]
  | cons y ys ih =>
    by_cases hlt : x.score < y.score
    · simp only [selectMax, if_pos hlt]
      refine ⟨le_trans (le_of_lt hlt) (ih y).1, ?_⟩
      intro z hz
      rcases List.mem_cons.mp hz with rfl | hz'
      · exact le_trans (le_of_lt hlt) (ih y).1
      · exact (ih y).2 z hz'
    · simp only [selectMax, if_neg hlt]
      refine ⟨(ih x).1, ?_⟩
      intro z hz
      rcases List.mem_cons.mp hz with rfl | hz'
      · exact le_trans (le_of_not_lt hlt) (ih x).1
      · exact (ih x).2 z hz'

theorem selSortFuel_perm : ∀ (fuel : Nat) (l : List SearchResult),
    l.length ≤ fuel → List.Perm (selSortFuel fuel l) l := by
  intro fuel
  induction fuel with
  | zero =>
    intro l hl
    have : l = [] := List.eq_nil_of_length_eq_zero (Nat.le_zero.mp hl)
    subst this
    simp [selSortFuel]
  | succ fuel ih =>
    intro l hl
    cases l with
    | nil => simp [selSortFuel]
    | cons x xs =>
      have hlen : (selectMax x xs).2.length ≤ fuel := by
        rw [selectMax_snd_length]
        simpa using hl
      rw [selSortFuel]
      exact List.Perm.trans (List.Perm.cons _ (ih _ hlen)) (selectMax_perm x xs).symm

theorem selSort_perm (l : List SearchResult) : List.Perm (selSort l) l :=
  selSortFuel_perm l.length l le_rfl

theorem selSortFuel_sorted : ∀ (fuel : Nat) (l : List SearchResult),
    l.length ≤ fuel → (selSortFuel fuel l).Pairwise (fun a b => b.score ≤ a.score) := by
  intro fuel
  induction fuel with
  | zero =>
    intro l hl
    have : l = [] := List.eq_nil_of_length_eq_zero (Nat.le_zero.mp hl)
    subst this
    simp [selSortFuel]
  | succ fuel ih =>
    intro l hl
    cases l with
    | nil => simp [selSortFuel]
    | cons x xs =>
      have hlen : (selectMax x xs).2.length ≤ fuel := by
        rw [selectMax_snd_length]
        simpa using hl
      rw [selSortFuel]
      refine List.pairwise_cons.mpr ⟨?_, ih _ hlen⟩
      intro z hz
      have hz' : z ∈ (selectMax x xs).2 :=
        (selSortFuel_perm fuel (selectMax x xs).2 hlen).mem_iff.mp hz
      exact (selectMax_fst_ge x xs).2 z hz'

theorem selSort_sorted (l : List SearchResult) :
    (selSort l).Pairwise (fun a b => b.score ≤ a.score) :=
  selSortFuel_sorted l.length l le_rfl

theorem selSort_length (l : List SearchResult) : (selSort l).length = l.length :=
  (selSort_perm l).length_eq

/-! ### Pagination lemmas -/

theorem paginate_eq_of_nonneg (l : List SearchResult) (offset limit : Int)
    (hoff : 0 ≤ offset) (hlim : 0 < limit) :
    paginate l offset limit = some ((l.drop offset.toNat).take limit.toNat) := by
  unfold paginate
  by_cases hge : offset ≥ (l.length : Int)
  · rw [if_pos hge]
    have hdrop : l.drop offset.toNat = [] := by
      apply List.drop_eq_nil_of_le
      omega
    rw [hdrop, List.take_nil]
  · rw [if_neg hge]
    have hcond : 0 ≤ offset ∧
        offset ≤ (if offset + limit > (l.length : Int) then (l.length : Int)
                  else offset + limit) := by
      constructor
      · exact hoff
      · split <;> omega
    rw [if_pos hcond]
    congr 1
    rw [List.take_eq_take]
    have hdlen : (l.drop offset.toNat).length = l.length - offset.toNat :=
      List.length_drop _ _
    by_cases hbig : offset + limit > (l.length : Int)
    · rw [if_pos hbig]
      rw [hdlen]
      omega
    · rw [if_neg hbig]
      have : (offset + limit - offset).toNat = limit.toNat := by omega
      rw [this]

theorem paginate_length_le (l : List SearchResult) (offset limit : Int)
    (page : List SearchResult) (h : paginate l offset limit = some page) :
    (page.length : Int) ≤ max limit 0 := by
  unfold paginate at h
  by_cases hge : offset ≥ (l.length : Int)
  · rw [if_pos hge] at h
    cases h
    simp
  · rw [if_neg hge] at h
    by_cases hcond : 0 ≤ offset ∧
        offset ≤ (if offset + limit > (l.length : Int) then (l.length : Int)
                  else offset + limit)
    · rw [if_pos hcond] at h
      cases h
      have htake := List.length_take
        ((if offset + limit > (l.length : Int) then (l.length : Int)
          else offset + limit) - offset).toNat (l.drop offset.toNat)
      have : (((if offset + limit > (l.length : Int) then (l.length : Int)
          else offset + limit) - offset).toNat : Int) ≤ max limit 0 := by
        split <;> omega
      simp only [List.length_take] at *
      omega
    · rw [if_neg hcond] at h
      cases h

theorem paginate_mem (l : List SearchResult) (offset limit : Int)
    (page : List SearchResult) (h : paginate l offset limit = some page)
    (r : SearchResult) (hr : r ∈ page) : r ∈ l := by
  unfold paginate at h
  by_cases hge : offset ≥ (l.length : Int)
  · rw [if_pos hge] at h
    cases h
    simp at hr
  · rw [if_neg hge] at h
    by_cases hcond : 0 ≤ offset ∧
        offset ≤ (if offset + limit > (l.length : Int) then (l.length : Int)
                  else offset + limit)
    · rw [if_pos hcond] at h
      cases h
      exact List.mem_of_mem_drop (List.mem_of_mem_take hr)
    · rw [if_neg hcond] at h
      cases h

/-! ### Score non-negativity and membership lemmas -/

theorem calculateFieldScore_nonneg (cfg : FuzzySearchConfig) (field : FieldConfig)
    (fieldValue : String) (terms : List String) :
    0 ≤ calculateFieldScore cfg field fieldValue terms := by
  unfold calculateFieldScore
  suffices h : ∀ acc : ℚ, 0 ≤ acc →
      0 ≤ terms.foldl
        (fun maxScore term =>
          let score := termScore cfg (goToLower fieldValue) (goToLower term) * (1 + field.boost)
          if score > maxScore then score else maxScore)
        acc from h 0 le_rfl
  induction terms with
  | nil => intro acc hacc; exact hacc
  | cons t ts ih =>
    intro acc hacc
    simp only [List.foldl_cons]
    apply ih
    dsimp only
    split
    · next hgt => linarith
    · exact hacc

theorem calculateRelevanceScore_nonneg (cfg : FuzzySearchConfig)
    (fields : List FieldConfig) (row : Row) (query : String)
    (hw : ∀ f ∈ fields, 0 ≤ f.weight) :
    0 ≤ calculateRelevanceScore cfg fields row query := by
  unfold calculateRelevanceScore
  split
  · exact le_rfl
  · suffices h : ∀ acc : ℚ, 0 ≤ acc →
        0 ≤ fields.foldl
          (fun totalScore field =>
            let fieldValue := getField row field.name
            if fieldValue = "" then totalScore
            else totalScore +
              calculateFieldScore cfg field fieldValue (tokenizeQuery cfg query) * field.weight)
          acc from h 0 le_rfl
    induction fields with
    | nil => intro acc hacc; exact hacc
    | cons f fs ih =>
      intro acc hacc
      simp only [List.foldl_cons]
      have hwf : 0 ≤ f.weight := hw f (List.mem_cons_self f fs)
      have hws : ∀ g ∈ fs, 0 ≤ g.weight := fun g hg => hw g (List.mem_cons_of_mem f hg)
      have ih' := ih hws
      apply ih'
      dsimp only
      split
      · exact hacc
      · have := mul_nonneg (calculateFieldScore_nonneg cfg f (getField row f.name)
          (tokenizeQuery cfg query)) hwf
        linarith

theorem searchEntity_mem (s : ServiceState) (db : Db) (t : String)
    (config : EntityConfig) (options : SearchOptions) (results : List SearchResult)
    (r : SearchResult) (h : searchEntity s db t config options = Except.ok results)
    (hr : r ∈ results) :
    s.config.scoreThreshold ≤ r.score ∧
      ∃ row, r = convertToSearchResult s.config t config row options := by
  unfold searchEntity at h
  cases hdb : db (buildEntityQuery s.config config options) with
  | error e => rw [hdb] at h; cases h
  | ok rows =>
    rw [hdb] at h
    simp only [Except.map] at h
    cases h
    have hfil := List.mem_filter.mp hr
    refine ⟨by simpa using hfil.2, ?_⟩
    rcases List.mem_map.mp hfil.1 with ⟨row, _, hconv⟩
    exact ⟨row, hconv.symm⟩

theorem collectLoop_cons_none (s : ServiceState) (db : Db) (options : SearchOptions)
    (t : String) (ts : List String) (h : List.lookup t s.entities = none) :
    collectLoop s db options (t :: ts) = collectLoop s db options ts := by
  simp [collectLoop, h]

theorem collectLoop_cons_err (s : ServiceState) (db : Db) (options : SearchOptions)
    (t : String) (ts : List String) (config : EntityConfig) (e : Unit)
    (hc : List.lookup t s.entities = some config)
    (hse : searchEntity s db t config options = Except.error e) :
    collectLoop s db options (t :: ts) = collectLoop s db options ts := by
  simp [collectLoop, hc, hse]

theorem collectLoop_cons_ok (s : ServiceState) (db : Db) (options : SearchOptions)
    (t : String) (ts : List String) (config : EntityConfig)
    (results : List SearchResult)
    (hc : List.lookup t s.entities = some config)
    (hse : searchEntity s db t config options = Except.ok results) :
    collectLoop s db options (t :: ts) =
      (results ++ (collectLoop s db options ts).1,
       upsert (collectLoop s db options ts).2 t results.length) := by
  simp [collectLoop, hc, hse]

theorem collectLoop_mem (s : ServiceState) (db : Db) (options : SearchOptions)
    (ts : List String) (r : SearchResult) (hr : r ∈ (collectLoop s db options ts).1) :
    ∃ t config results, List.lookup t s.entities = some config ∧
      searchEntity s db t config options = Except.ok results ∧ r ∈ results := by
  induction ts with
  | nil => simp [collectLoop] at hr
  | cons t ts ih =>
    cases hlook : List.lookup t s.entities with
    | none =>
      rw [collectLoop_cons_none s db options t ts hlook] at hr
      exact ih hr
    | some config =>
      cases hse : searchEntity s db t config options with
      | error e =>
        rw [collectLoop_cons_err s db options t ts config e hlook hse] at hr
        exact ih hr
      | ok results =>
        rw [collectLoop_cons_ok s db options t ts config results hlook hse] at hr
        rcases List.mem_append.mp hr with h1 | h2
        · exact ⟨t, config, results, hlook, hse, h1⟩
        · exact ih h2

theorem sortResults_perm (results : List SearchResult) (options : SearchOptions) :
    List.Perm (sortResults results options) results := by
  unfold sortResults
  split
  · exact selSort_perm results
  · exact List.Perm.refl results

/-- The member of the registry found by a successful lookup. -/
theorem lookup_mem (l : List (String × α)) (k : String) (v : α)
    (h : List.lookup k l = some v) : (k, v) ∈ l := by
  induction l with
  | nil => cases h
  | cons p t ih =>
    obtain ⟨pk, pv⟩ := p
    by_cases hk : k = pk
    · subst hk
      simp only [List.lookup_cons, beq_self_eq_true, cond_true, Option.some.injEq] at h
      subst h
      exact List.mem_cons_self _ _
    · have hne : (k == pk) = false := beq_false_of_ne hk
      simp only [List.lookup_cons, hne, cond_false] at h
      exact List.mem_cons_of_mem _ (ih h)

/-! ### Concrete fixtures for witnesses and counterexamples -/

def widgetField : FieldConfig :=
  { name := "title", weight := 1, searchType := "contains", boost := 0 }

def widgetEntity : EntityConfig :=
  { tableName := "widgets", displayName := "Widgets", searchFields := [widgetField] }

def widgetState : ServiceState :=
  { config := defaultFuzzySearchConfig, entities := [("widgets", widgetEntity)] }

def widgetRows : List Row :=
  [[("id", "1"), ("title", "Blue Widget")], [("id", "2"), ("title", "Red Gadget")]]

def widgetDb : Db := fun q =>
  if q.tableName = "widgets" then Except.ok widgetRows else Except.ok []

def widgetOpts : SearchOptions := { query := "widget", limit := 10 }

def emptyResponse : SearchResponse :=
  { query := "", total := 0, results := [], categories := [], suggestions := [] }

def emptyResult : SearchResult :=
  { id := none, type := "", title := "", description := "", url := "", score := 0,
    highlights := [], data := ([] : List (String × String)), metaData := [] }

def widgetResp : SearchResponse :=
  (Search widgetState widgetDb widgetOpts).getD emptyResponse

def widgetTopResult : SearchResult :=
  widgetResp.results.getD 0 emptyResult

/-! ### Claim theorems -/

/-- C3 (amended): `Search` short-circuits on the *length of the trimmed
query string*, not on the tokenized terms: whenever the trimmed query is
shorter than `config.minSearchLength`, it returns `total = 0`, empty
results, and no error, for every registry, store, and entity-type
combination. -/
theorem search_short_query_early_return (s : ServiceState) (db : Db)
    (options : SearchOptions)
    (h : ((goTrimSpace options.query).length : Int) < s.config.minSearchLength) :
    Search s db options =
      some { query := options.query, total := 0, results := [], categories := [],
             suggestions := [] } := by
  unfold Search
  rw [if_pos h]

/-- Witness for `search_short_query_early_return` at query `"a"` with the
default config (`minSearchLength = 2`). -/
theorem search_short_query_early_return_witness :
    (((goTrimSpace "a").length : Int) < widgetState.config.minSearchLength) ∧
    Search widgetState widgetDb { query := "a", limit := 10 } =
      some { query := "a", total := 0, results := [], categories := [],
             suggestions := [] } :=
  ⟨by decide,
   search_short_query_early_return widgetState widgetDb { query := "a", limit := 10 }
     (by decide)⟩

/-- C3 counterexample: with `minSearchLength = 2` and `scoreThreshold = 0`,
the query `"a b"` tokenizes to *no* valid term (both terms are shorter than
`minSearchLength`), yet `Search` is not short-circuited (the trimmed query
has length 3): it queries the entity with no search condition and returns
every row with score 0, so `total = 2`, refuting the claim that such a
query always yields `total = 0` and empty results. -/
theorem search_short_tokenization_counterexample :
    tokenizeQuery { defaultFuzzySearchConfig with scoreThreshold := 0 } "a b" = [] ∧
    (Search { config := { defaultFuzzySearchConfig with scoreThreshold := 0 },
              entities := [("widgets", widgetEntity)] }
        widgetDb { query := "a b", limit := 10 }).map (fun resp => resp.total) =
      some 2 := by
  constructor
  · decide
  · decide

/-- C4: every result `Search` returns has a non-negative score (given that
every registered search-field weight is non-negative) and a score at or
above `config.scoreThreshold`: below-threshold rows are dropped per entity,
before the cross-entity merge, and never reach the caller. -/
theorem search_results_nonneg_and_thresholded (s : ServiceState) (db : Db)
    (options : SearchOptions) (resp : SearchResponse) (r : SearchResult)
    (hw : ∀ p ∈ s.entities, ∀ f ∈ p.2.searchFields, 0 ≤ f.weight)
    (hresp : Search s db options = some resp) (hr : r ∈ resp.results) :
    0 ≤ r.score ∧ s.config.scoreThreshold ≤ r.score := by
  unfold Search at hresp
  by_cases hguard : ((goTrimSpace options.query).length : Int) < s.config.minSearchLength
  · rw [if_pos hguard] at hresp
    cases hresp
    simp at hr
  · rw [if_neg hguard] at hresp
    rcases Option.map_eq_some'.mp hresp with ⟨page, hpag, hpage⟩
    have hrpage : r ∈ page := by
      rw [← hpage] at hr
      simpa using hr
    have hsorted := paginate_mem _ _ _ _ hpag r hrpage
    have hmerged : r ∈ (collectLoop s db options (effectiveEntityTypes s options)).1 :=
      (sortResults_perm _ options).mem_iff.mp hsorted
    rcases collectLoop_mem s db options _ r hmerged with ⟨t, config, results, hl, hse, hrres⟩
    rcases searchEntity_mem s db t config options results r hse hrres with ⟨hth, row, hconv⟩
    refine ⟨?_, hth⟩
    have hwcfg : ∀ f ∈ config.searchFields, 0 ≤ f.weight :=
      hw (t, config) (lookup_mem s.entities t config hl)
    have hscore : r.score =
        calculateRelevanceScore s.config config.searchFields row options.query := by
      rw [hconv]
      rfl
    rw [hscore]
    exact calculateRelevanceScore_nonneg s.config config.searchFields row options.query hwcfg

/-- Witness for `search_results_nonneg_and_thresholded`: the top result for
query `"widget"` over the widgets fixture. -/
theorem search_results_nonneg_and_thresholded_witness :
    0 ≤ widgetTopResult.score ∧
      widgetState.config.scoreThreshold ≤ widgetTopResult.score :=
  search_results_nonneg_and_thresholded widgetState widgetDb widgetOpts widgetResp
    widgetTopResult (by decide) (by decide) (by decide)

/-- C9: registering an entity configuration under an already registered name
overwrites it, with no validation: after registering the same name twice the
registry maps that name to the latest config, holds exactly one entry for
it, and `GetEntityTypes` reports no duplicate names. -/
theorem registerEntity_latest_wins (s : ServiceState) (n : String)
    (c1 c2 : EntityConfig) (hnodup : (s.entities.map Prod.fst).Nodup) :
    List.lookup n (GetEntityTypes (RegisterEntity (RegisterEntity s n c1) n c2)) =
        some c2 ∧
      ((GetEntityTypes (RegisterEntity (RegisterEntity s n c1) n c2)).map
          Prod.fst).count n = 1 ∧
      ((GetEntityTypes (RegisterEntity (RegisterEntity s n c1) n c2)).map
          Prod.fst).Nodup := by
  refine ⟨upsert_lookup _ n c2, ?_, ?_⟩
  · exact upsert_count_eq_one _ n c2 (upsert_nodup _ n c1 hnodup)
  · exact upsert_nodup _ n c2 (upsert_nodup _ n c1 hnodup)

/-- Witness for `registerEntity_latest_wins`: register `"widgets"` twice on
the widgets fixture; the second config (an empty-field config) wins. -/
theorem registerEntity_latest_wins_witness :
    List.lookup "widgets"
        (GetEntityTypes (RegisterEntity (RegisterEntity widgetState "widgets"
          widgetEntity) "widgets" { tableName := "w2", searchFields := [] })) =
      some { tableName := "w2", searchFields := [] } ∧
    ((GetEntityTypes (RegisterEntity (RegisterEntity widgetState "widgets"
        widgetEntity) "widgets" { tableName := "w2", searchFields := [] })).map
        Prod.fst).count "widgets" = 1 ∧
    ((GetEntityTypes (RegisterEntity (RegisterEntity widgetState "widgets"
        widgetEntity) "widgets" { tableName := "w2", searchFields := [] })).map
        Prod.fst).Nodup :=
  registerEntity_latest_wins widgetState "widgets" widgetEntity
    { tableName := "w2", searchFields := [] } (by decide)

/-- C10: a non-positive or over-large caller limit is replaced with
`config.maxResults`, so (for a positive `maxResults`) no successful response
page ever holds more than `config.maxResults` results, whatever the caller
requested. -/
theorem search_page_bounded_by_maxResults (s : ServiceState) (db : Db)
    (options : SearchOptions) (resp : SearchResponse)
    (hmax : 0 < s.config.maxResults)
    (hresp : Search s db options = some resp) :
    (resp.results.length : Int) ≤ s.config.maxResults := by
  unfold Search at hresp
  by_cases hguard : ((goTrimSpace options.query).length : Int) < s.config.minSearchLength
  · rw [if_pos hguard] at hresp
    cases hresp
    simpa using le_of_lt hmax
  · rw [if_neg hguard] at hresp
    rcases Option.map_eq_some'.mp hresp with ⟨page, hpag, hpage⟩
    have hlen := paginate_length_le _ _ _ _ hpag
    have hresults : resp.results = page := by rw [← hpage]
    have hlim : effectiveLimit s options ≤ s.config.maxResults := by
      unfold effectiveLimit
      split
      · exact le_rfl
      · next hcond =>
        push_neg at hcond
        exact hcond.2
    rw [hresults]
    calc (page.length : Int) ≤ max (effectiveLimit s options) 0 := hlen
      _ ≤ s.config.maxResults := max_le hlim (le_of_lt hmax)

/-- Witness for `search_page_bounded_by_maxResults`: a caller limit of 99
against `maxResults = 50`. -/
theorem search_page_bounded_by_maxResults_witness :
    (((Search widgetState widgetDb { query := "widget", limit := 99 }).getD
        emptyResponse).results.length : Int) ≤ widgetState.config.maxResults :=
  search_page_bounded_by_maxResults widgetState widgetDb
    { query := "widget", limit := 99 }
    ((Search widgetState widgetDb { query := "widget", limit := 99 }).getD emptyResponse)
    (by decide) (by decide)

/-- C2 (amended): when no custom sort is requested (`sortBy` empty or
`"score"`), the offset is non-negative, `maxResults` is positive and the
query passes the length guard, `Search` returns exactly the slice
`[offset, offset + limit')` (`limit'` the normalised limit, shorter if the
list is exhausted) of a score-sorted descending permutation of the
concatenation of the per-entity result lists, and `total` is the full
candidate count, independent of offset and limit: pagination is global
across entity types. -/
theorem search_pagination_correct (s : ServiceState) (db : Db) (options : SearchOptions)
    (hq : s.config.minSearchLength ≤ ((goTrimSpace options.query).length : Int))
    (hoff : 0 ≤ options.offset) (hmax : 0 < s.config.maxResults)
    (hsort : options.sortBy = "" ∨ options.sortBy = "score") :
    ∃ resp L,
      Search s db options = some resp ∧
      List.Perm L (collectLoop s db options (effectiveEntityTypes s options)).1 ∧
      L.Pairwise (fun a b => b.score ≤ a.score) ∧
      resp.results = (L.drop options.offset.toNat).take (effectiveLimit s options).toNat ∧
      resp.total = (collectLoop s db options (effectiveEntityTypes s options)).1.length := by
  have hguard : ¬ ((goTrimSpace options.query).length : Int) < s.config.minSearchLength :=
    not_lt.mpr hq
  have hsr : sortResults (collectLoop s db options (effectiveEntityTypes s options)).1 options
      = selSort (collectLoop s db options (effectiveEntityTypes s options)).1 := by
    unfold sortResults
    rw [if_pos hsort]
  have hlim : 0 < effectiveLimit s options := by
    unfold effectiveLimit
    split
    · exact hmax
    · next hcond =>
      push_neg at hcond
      exact hcond.1
  have hsearch : Search s db options =
      some { query := options.query,
             total := (selSort (collectLoop s db options (effectiveEntityTypes s options)).1).length,
             results := ((selSort (collectLoop s db options (effectiveEntityTypes s options)).1).drop
                 options.offset.toNat).take (effectiveLimit s options).toNat,
             categories := (collectLoop s db options (effectiveEntityTypes s options)).2,
             suggestions :=
               if ((selSort (collectLoop s db options (effectiveEntityTypes s options)).1).drop
                   options.offset.toNat).take (effectiveLimit s options).toNat = [] then
                 generateSuggestions s options.query
               else [] } := by
    unfold Search
    rw [if_neg hguard]
    simp only []
    rw [hsr, paginate_eq_of_nonneg _ _ _ hoff hlim]
    rfl
  refine ⟨_, selSort (collectLoop s db options (effectiveEntityTypes s options)).1,
    hsearch, selSort_perm _, selSort_sorted _, rfl, selSort_length _⟩

/-- Witness for `search_pagination_correct`: query `"widget"`, offset 1,
limit 10 over the widgets fixture. -/
theorem search_pagination_correct_witness :
    ∃ resp L,
      Search widgetState widgetDb { query := "widget", offset := 1, limit := 10 } =
          some resp ∧
      List.Perm L (collectLoop widgetState widgetDb
        { query := "widget", offset := 1, limit := 10 }
        (effectiveEntityTypes widgetState
          { query := "widget", offset := 1, limit := 10 })).1 ∧
      L.Pairwise (fun a b => b.score ≤ a.score) ∧
      resp.results = (L.drop (1 : Int).toNat).take
        (effectiveLimit widgetState { query := "widget", offset := 1, limit := 10 }).toNat ∧
      resp.total = (collectLoop widgetState widgetDb
        { query := "widget", offset := 1, limit := 10 }
        (effectiveEntityTypes widgetState
          { query := "widget", offset := 1, limit := 10 })).1.length :=
  search_pagination_correct widgetState widgetDb
    { query := "widget", offset := 1, limit := 10 }
    (by decide) (by decide) (by decide) (Or.inl rfl)

def blueRows : List Row :=
  [[("id", "1"), ("title", "blueberry")], [("id", "2"), ("title", "blue")]]

def blueDb : Db := fun q =>
  if q.tableName = "widgets" then Except.ok blueRows else Except.ok []

/-- C2 counterexample: with `sortBy = "title"` (any value other than `""` or
`"score"`), `sortResults` returns the merged list unsorted, so the returned
page (`scores [3/2, 2]`) is *not* the slice of the score-sorted descending
candidate list (`scores [2, 3/2]`): the claim fails for arbitrary
`SearchOptions`. -/
theorem search_pagination_counterexample :
    (Search widgetState blueDb { query := "blue", limit := 10, sortBy := "title" }).map
        (fun resp => resp.results.map (fun r => r.score)) = some [3/2, 2] ∧
    ¬ ([(3 : ℚ)/2, 2].Pairwise (fun a b => b ≤ a)) := by
  constructor
  · decide
  · decide

/-! ### Per-entity failure tolerance (C8) -/

theorem effectiveLimit_pos (s : ServiceState) (options : SearchOptions)
    (hmax : 0 < s.config.maxResults) : 0 < effectiveLimit s options := by
  unfold effectiveLimit
  split
  · exact hmax
  · next hcond =>
    push_neg at hcond
    exact hcond.1

theorem search_isSome (s : ServiceState) (db : Db) (options : SearchOptions)
    (hoff : 0 ≤ options.offset) (hmax : 0 < s.config.maxResults) :
    (Search s db options).isSome = true := by
  unfold Search
  by_cases hguard : ((goTrimSpace options.query).length : Int) < s.config.minSearchLength
  · rw [if_pos hguard]
    rfl
  · rw [if_neg hguard]
    simp only []
    rw [paginate_eq_of_nonneg _ _ _ hoff (effectiveLimit_pos s options hmax)]
    rfl

theorem searchEntity_entityTypes_irrel (s : ServiceState) (db : Db) (t : String)
    (config : EntityConfig) (options : SearchOptions) (x : List String) :
    searchEntity s db t config { options with entityTypes := x } =
      searchEntity s db t config options := rfl

theorem collectLoop_entityTypes_irrel (s : ServiceState) (db : Db)
    (options : SearchOptions) (x : List String) (ts : List String) :
    collectLoop s db { options with entityTypes := x } ts =
      collectLoop s db options ts := by
  induction ts with
  | nil => rfl
  | cons t ts ih =>
    cases hlook : List.lookup t s.entities with
    | none =>
      rw [collectLoop_cons_none s db { options with entityTypes := x } t ts hlook,
          collectLoop_cons_none s db options t ts hlook, ih]
    | some config =>
      cases hse : searchEntity s db t config options with
      | error e =>
        have hse' : searchEntity s db t config { options with entityTypes := x } =
            Except.error e := hse
        rw [collectLoop_cons_err s db { options with entityTypes := x } t ts config e
              hlook hse',
            collectLoop_cons_err s db options t ts config e hlook hse, ih]
      | ok results =>
        have hse' : searchEntity s db t config { options with entityTypes := x } =
            Except.ok results := hse
        rw [collectLoop_cons_ok s db { options with entityTypes := x } t ts config results
              hlook hse',
            collectLoop_cons_ok s db options t ts config results hlook hse, ih]

theorem collectLoop_filter_failing (s : ServiceState) (db : Db)
    (options : SearchOptions) (a : String)
    (hfail : ∀ config, List.lookup a s.entities = some config →
      db (buildEntityQuery s.config config options) = Except.error ()) :
    ∀ ts, collectLoop s db options ts =
      collectLoop s db options (ts.filter (fun t => t ≠ a)) := by
  intro ts
  induction ts with
  | nil => rfl
  | cons t ts ih =>
    by_cases hta : t = a
    · subst hta
      have hfilter : (t :: ts).filter (fun u => u ≠ t) = ts.filter (fun u => u ≠ t) := by
        simp [List.filter_cons]
      rw [hfilter]
      cases hlook : List.lookup t s.entities with
      | none => rw [collectLoop_cons_none s db options t ts hlook, ih]
      | some config =>
        have hse : searchEntity s db t config options = Except.error () := by
          unfold searchEntity
          rw [hfail config hlook]
          rfl
        rw [collectLoop_cons_err s db options t ts config () hlook hse, ih]
    · have hfilter : (t :: ts).filter (fun u => u ≠ a) = t :: ts.filter (fun u => u ≠ a) := by
        simp [List.filter_cons, hta]
      rw [hfilter]
      cases hlook : List.lookup t s.entities with
      | none =>
        rw [collectLoop_cons_none s db options t ts hlook,
            collectLoop_cons_none s db options t (ts.filter (fun u => u ≠ a)) hlook, ih]
      | some config =>
        cases hse : searchEntity s db t config options with
        | error e =>
          rw [collectLoop_cons_err s db options t ts config e hlook hse,
              collectLoop_cons_err s db options t (ts.filter (fun u => u ≠ a)) config e
                hlook hse, ih]
        | ok results =>
          rw [collectLoop_cons_ok s db options t ts config results hlook hse,
              collectLoop_cons_ok s db options t (ts.filter (fun u => u ≠ a)) config results
                hlook hse, ih]

/-- C8: a query-execution failure for one entity type does not abort the
overall search: the failing entity is skipped (the response equals the one
for the same request with that entity type removed from the list), results
from the unaffected entity types are still returned, and `Search` returns a
successful response (never an error), even when entity queries fail. -/
theorem search_entity_failure_skipped (s : ServiceState) (db : Db)
    (options : SearchOptions) (a : String)
    (hfail : ∀ config, List.lookup a s.entities = some config →
      db (buildEntityQuery s.config config options) = Except.error ())
    (hrest : (effectiveEntityTypes s options).filter (fun t => t ≠ a) ≠ [])
    (hoff : 0 ≤ options.offset) (hmax : 0 < s.config.maxResults) :
    (Search s db options).isSome = true ∧
    Search s db options = Search s db
      { options with
          entityTypes := (effectiveEntityTypes s options).filter (fun t => t ≠ a) } := by
  refine ⟨search_isSome s db options hoff hmax, ?_⟩
  have heff' : effectiveEntityTypes s
      { options with
          entityTypes := (effectiveEntityTypes s options).filter (fun t => t ≠ a) } =
      (effectiveEntityTypes s options).filter (fun t => t ≠ a) := by
    conv_lhs => rw [effectiveEntityTypes]
    rw [if_neg hrest]
  have hcoll : collectLoop s db options (effectiveEntityTypes s options) =
      collectLoop s db
        { options with
            entityTypes := (effectiveEntityTypes s options).filter (fun t => t ≠ a) }
        (effectiveEntityTypes s
          { options with
              entityTypes := (effectiveEntityTypes s options).filter (fun t => t ≠ a) }) := by
    rw [heff',
        collectLoop_entityTypes_irrel s db options
          ((effectiveEntityTypes s options).filter (fun t => t ≠ a))
          ((effectiveEntityTypes s options).filter (fun t => t ≠ a))]
    exact collectLoop_filter_failing s db options a hfail (effectiveEntityTypes s options)
  unfold Search
  simp only []
  rw [← hcoll]
  rfl

def gadgetEntity : EntityConfig :=
  { tableName := "gadgets", displayName := "Gadgets", searchFields := [widgetField] }

def twoState : ServiceState :=
  { config := defaultFuzzySearchConfig,
    entities := [("widgets", widgetEntity), ("gadgets", gadgetEntity)] }

/-- A store that answers the widgets query and fails the gadgets query. -/
def failDb : Db := fun q =>
  if q.tableName = "widgets" then Except.ok widgetRows else Except.error ()

def failOpts : SearchOptions :=
  { query := "widget", limit := 10, entityTypes := ["widgets", "gadgets"] }

/-- Witness for `search_entity_failure_skipped`: the gadgets query fails,
the widgets results are still returned. -/
theorem search_entity_failure_skipped_witness :
    (Search twoState failDb failOpts).isSome = true ∧
    Search twoState failDb failOpts = Search twoState failDb
      { failOpts with
          entityTypes :=
            (effectiveEntityTypes twoState failOpts).filter
              (fun t => t ≠ "gadgets") } :=
  search_entity_failure_skipped twoState failDb failOpts "gadgets"
    (by
      intro config hconfig
      have hlk : List.lookup "gadgets" twoState.entities = some gadgetEntity := by decide
      have hcfg : gadgetEntity = config := Option.some.inj (hlk.symm.trans hconfig)
      subst hcfg
      decide)
    (by decide) (by decide) (by decide)

/-! ### requireAuth is never consulted by the engine (C1) -/

/-- Flip only the `requireAuth` flag of one entity configuration. -/
def setRequireAuth (c : EntityConfig) (b : Bool) : EntityConfig :=
  { c with permissions := { c.permissions with requireAuth := b } }

/-- Set every registered entity's `requireAuth` flag to `b`. -/
def maskRequireAuth (s : ServiceState) (b : Bool) : ServiceState :=
  { s with entities := s.entities.map (fun p => (p.1, setRequireAuth p.2 b)) }

theorem lookup_map_snd (l : List (String × α)) (g : α → β) (t : String) :
    List.lookup t (l.map (fun p => (p.1, g p.2))) = (List.lookup t l).map g := by
  induction l with
  | nil => simp [List.lookup]
  | cons p tl ih =>
    obtain ⟨pk, pv⟩ := p
    by_cases hk : t = pk
    · subst hk
      simp [List.lookup_cons]
    · have hne : (t == pk) = false := beq_false_of_ne hk
      simp [List.lookup_cons, hne, ih]

theorem collectLoop_maskRequireAuth (s : ServiceState) (db : Db)
    (options : SearchOptions) (b : Bool) (ts : List String) :
    collectLoop (maskRequireAuth s b) db options ts = collectLoop s db options ts := by
  induction ts with
  | nil => rfl
  | cons t ts ih =>
    have hlk : List.lookup t (maskRequireAuth s b).entities =
        (List.lookup t s.entities).map (fun c => setRequireAuth c b) :=
      lookup_map_snd s.entities (fun c => setRequireAuth c b) t
    cases hlook : List.lookup t s.entities with
    | none =>
      have h1 : List.lookup t (maskRequireAuth s b).entities = none := by
        rw [hlk, hlook]
        rfl
      rw [collectLoop_cons_none (maskRequireAuth s b) db options t ts h1,
          collectLoop_cons_none s db options t ts hlook, ih]
    | some config =>
      have h1 : List.lookup t (maskRequireAuth s b).entities =
          some (setRequireAuth config b) := by
        rw [hlk, hlook]
        rfl
      have hseq : searchEntity (maskRequireAuth s b) db t (setRequireAuth config b) options =
          searchEntity s db t config options := rfl
      cases hse : searchEntity s db t config options with
      | error e =>
        rw [collectLoop_cons_err (maskRequireAuth s b) db options t ts
              (setRequireAuth config b) e h1 (hseq.trans hse),
            collectLoop_cons_err s db options t ts config e hlook hse, ih]
      | ok results =>
        rw [collectLoop_cons_ok (maskRequireAuth s b) db options t ts
              (setRequireAuth config b) results h1 (hseq.trans hse),
            collectLoop_cons_ok s db options t ts config results hlook hse, ih]

/-- C1 (amended): the engine never consults `permissions.requireAuth`:
`Search`'s entire output is unchanged when every registered entity's
`requireAuth` flag is overwritten (in particular, an entity with
`requireAuth = true` is queried and returns results even when both `userId`
and `tenantId` are absent — exclusion is not enforced by the engine). -/
theorem search_ignores_requireAuth (s : ServiceState) (db : Db)
    (options : SearchOptions) (b : Bool) :
    Search (maskRequireAuth s b) db options = Search s db options := by
  have heff : effectiveEntityTypes (maskRequireAuth s b) options =
      effectiveEntityTypes s options := by
    unfold effectiveEntityTypes maskRequireAuth
    split
    · rw [List.map_map]
      exact List.map_congr_left (fun p _ => rfl)
    · rfl
  have hsugg : generateSuggestions (maskRequireAuth s b) options.query =
      generateSuggestions s options.query := by
    unfold generateSuggestions maskRequireAuth
    rw [List.map_map]
    congr 1
  unfold Search
  simp only []
  rw [heff, collectLoop_maskRequireAuth s db options b (effectiveEntityTypes s options),
      hsugg]
  rfl

def authEntity : EntityConfig :=
  { tableName := "users", displayName := "Users",
    searchFields := [{ name := "first_name", weight := 1, searchType := "contains",
                       boost := 0 }],
    permissions := { requireAuth := true, tenantField := "organization_id" } }

def authState : ServiceState :=
  { config := defaultFuzzySearchConfig, entities := [("users", authEntity)] }

def authDb : Db := fun q =>
  if q.tableName = "users" then Except.ok [[("id", "7"), ("first_name", "alice")]]
  else Except.ok []

def authOpts : SearchOptions := { query := "alice", limit := 10 }

/-- C1 counterexample: an entity registered with `requireAuth = true` is
queried and its row is returned by `Search` although the request carries no
caller identity (`userId` and `tenantId` both absent) — the engine neither
rejects nor skips it. -/
theorem search_requireAuth_not_enforced_counterexample :
    authOpts.userId = none ∧ authOpts.tenantId = none ∧
    (List.lookup "users" authState.entities).map (fun c => c.permissions.requireAuth) =
      some true ∧
    (Search authState authDb authOpts).map
        (fun resp => resp.results.map (fun r => r.type)) = some ["users"] := by
  refine ⟨rfl, rfl, by decide, by decide⟩

/-! ### Scoring branch lemmas (C5, C6) -/

theorem termScore_exact (cfg : FuzzySearchConfig) (vl tl : String) (h : vl = tl) :
    termScore cfg vl tl = cfg.exactMatchBoost := by
  unfold termScore
  rw [if_pos h]

theorem termScore_prefixMatch (cfg : FuzzySearchConfig) (vl tl : String)
    (h1 : vl ≠ tl) (h2 : tl.data.isPrefixOf vl.data = true) :
    termScore cfg vl tl = cfg.prefixMatchBoost := by
  unfold termScore
  rw [if_neg h1, if_pos h2]

theorem termScore_contains (cfg : FuzzySearchConfig) (vl tl : String)
    (h1 : vl ≠ tl) (h2 : tl.data.isPrefixOf vl.data = false)
    (h3 : List.IsInfix tl.data vl.data) :
    termScore cfg vl tl = 1 := by
  unfold termScore
  rw [if_neg h1, if_neg (by simp [h2] : ¬ tl.data.isPrefixOf vl.data = true), if_pos h3]

theorem termScore_fuzzy (cfg : FuzzySearchConfig) (vl tl : String)
    (h3 : ¬ List.IsInfix tl.data vl.data) :
    termScore cfg vl tl = calculateFuzzyScore vl tl := by
  have h1 : vl ≠ tl := by
    intro he
    exact h3 (by rw [he])
  have h2 : ¬ tl.data.isPrefixOf vl.data = true := by
    intro hp
    have hpre := List.isPrefixOf_iff_prefix.mp hp
    exact h3 hpre.isInfix
  unfold termScore
  rw [if_neg h1, if_neg h2, if_neg h3]

theorem calculateFuzzyScore_eq (text term : String) :
    calculateFuzzyScore text term =
      if term.length < 3 then 0
      else if charOverlap text term < 1/2 then 0
      else charOverlap text term * (1/2) := rfl

theorem charOverlap_nonneg (text term : String) : 0 ≤ charOverlap text term :=
  div_nonneg (Nat.cast_nonneg _) (Nat.cast_nonneg _)

theorem charOverlap_le_one (text term : String) : charOverlap text term ≤ 1 := by
  unfold charOverlap
  rcases Nat.eq_zero_or_pos term.length with h | h
  · rw [h]
    norm_num
  · rw [div_le_one (by exact_mod_cast h)]
    have hlen : (term.data.filter (fun c => text.data.contains c)).length ≤
        term.data.length := List.length_filter_le _ _
    have hdata : term.length = term.data.length := rfl
    exact_mod_cast hdata ▸ hlen

theorem calculateFuzzyScore_le_half (text term : String) :
    calculateFuzzyScore text term ≤ 1/2 := by
  rw [calculateFuzzyScore_eq]
  split
  · norm_num
  · split
    · norm_num
    · calc charOverlap text term * (1/2) ≤ 1 * (1/2) :=
          mul_le_mul_of_nonneg_right (charOverlap_le_one text term) (by norm_num)
        _ = 1/2 := one_mul _

theorem calculateFuzzyScore_nonneg (text term : String) :
    0 ≤ calculateFuzzyScore text term := by
  rw [calculateFuzzyScore_eq]
  split
  · exact le_rfl
  · split
    · exact le_rfl
    · exact mul_nonneg (charOverlap_nonneg text term) (by norm_num)

theorem calculateFieldScore_singleton (cfg : FuzzySearchConfig) (field : FieldConfig)
    (v t : String) :
    calculateFieldScore cfg field v [t] =
      max (termScore cfg (goToLower v) (goToLower t) * (1 + field.boost)) 0 := by
  unfold calculateFieldScore
  simp only [List.foldl_cons, List.foldl_nil]
  rcases le_or_lt (termScore cfg (goToLower v) (goToLower t) * (1 + field.boost)) 0 with
    h | h
  · rw [if_neg (not_lt.mpr h), max_eq_right h]
  · rw [if_pos h, max_eq_left (le_of_lt h)]

theorem max_mul_right_mono (a b f : ℚ) (hb : 0 ≤ b) (hab : b ≤ a) :
    max (b * f) 0 ≤ max (a * f) 0 := by
  rcases le_or_lt 0 f with hf | hf
  · exact max_le_max (mul_le_mul_of_nonneg_right hab hf) le_rfl
  · have hbf : b * f ≤ 0 := mul_nonpos_iff.mpr (Or.inl ⟨hb, le_of_lt hf⟩)
    have haf : a * f ≤ 0 := mul_nonpos_iff.mpr (Or.inl ⟨le_trans hb hab, le_of_lt hf⟩)
    rw [max_eq_right hbf, max_eq_right haf]

/-- C5: for a fixed field and `exactMatchBoost ≥ prefixMatchBoost ≥ 1`, the
per-field contribution of an exact match dominates a prefix match, which
dominates a contains match, which dominates a fuzzy match; the fuzzy score
itself never exceeds the 1/2 ceiling before the boost factor. -/
theorem fieldScore_monotone (cfg : FuzzySearchConfig) (field : FieldConfig)
    (v1 t1 v2 t2 v3 t3 v4 t4 : String)
    (hEP : cfg.prefixMatchBoost ≤ cfg.exactMatchBoost)
    (hP1 : 1 ≤ cfg.prefixMatchBoost)
    (hx : goToLower v1 = goToLower t1)
    (hp : (goToLower t2).data.isPrefixOf (goToLower v2).data = true)
    (hp' : goToLower v2 ≠ goToLower t2)
    (hc : List.IsInfix (goToLower t3).data (goToLower v3).data)
    (hc' : (goToLower t3).data.isPrefixOf (goToLower v3).data = false)
    (hf : ¬ List.IsInfix (goToLower t4).data (goToLower v4).data) :
    calculateFieldScore cfg field v2 [t2] ≤ calculateFieldScore cfg field v1 [t1] ∧
    calculateFieldScore cfg field v3 [t3] ≤ calculateFieldScore cfg field v2 [t2] ∧
    calculateFieldScore cfg field v4 [t4] ≤ calculateFieldScore cfg field v3 [t3] ∧
    calculateFuzzyScore (goToLower v4) (goToLower t4) ≤ 1/2 := by
  have hc1 : goToLower v3 ≠ goToLower t3 := by
    intro he
    have : (goToLower t3).data.isPrefixOf (goToLower v3).data = true := by
      rw [he]
      exact List.isPrefixOf_iff_prefix.mpr ⟨[], by simp⟩
    rw [this] at hc'
    cases hc'
  simp only [calculateFieldScore_singleton]
  rw [termScore_exact cfg _ _ hx, termScore_prefixMatch cfg _ _ hp' hp,
      termScore_contains cfg _ _ hc1 hc' hc, termScore_fuzzy cfg _ _ hf]
  refine ⟨?_, ?_, ?_, calculateFuzzyScore_le_half _ _⟩
  · exact max_mul_right_mono _ _ _ (le_trans zero_le_one hP1) hEP
  · exact max_mul_right_mono _ _ _ zero_le_one hP1
  · exact max_mul_right_mono _ _ _ (calculateFuzzyScore_nonneg _ _)
      (le_trans (calculateFuzzyScore_le_half _ _) (by norm_num))

/-- Witness for `fieldScore_monotone` with the default boosts (2 ≥ 3/2 ≥ 1)
at exact `"acme"/"acme"`, prefix `"acme!"/"ac"`, contains `"xacme"/"acm"`,
fuzzy `"xyz"/"abc"`. -/
theorem fieldScore_monotone_witness :
    calculateFieldScore defaultFuzzySearchConfig widgetField "acme!" ["ac"] ≤
        calculateFieldScore defaultFuzzySearchConfig widgetField "acme" ["acme"] ∧
    calculateFieldScore defaultFuzzySearchConfig widgetField "xacme" ["acm"] ≤
        calculateFieldScore defaultFuzzySearchConfig widgetField "acme!" ["ac"] ∧
    calculateFieldScore defaultFuzzySearchConfig widgetField "xyz" ["abc"] ≤
        calculateFieldScore defaultFuzzySearchConfig widgetField "xacme" ["acm"] ∧
    calculateFuzzyScore (goToLower "xyz") (goToLower "abc") ≤ 1/2 :=
  fieldScore_monotone defaultFuzzySearchConfig widgetField
    "acme" "acme" "acme!" "ac" "xacme" "acm" "xyz" "abc"
    (by decide) (by decide) (by decide) (by decide) (by decide) (by decide)
    (by decide) (by decide)

theorem foldl_max_eq (g : String → ℚ) (terms : List String) :
    ∀ acc : ℚ, terms.foldl (fun m u => if g u > m then g u else m) acc =
      (terms.map g).foldl (fun m x => max m x) acc := by
  induction terms with
  | nil => intro acc; rfl
  | cons u us ih =>
    intro acc
    simp only [List.foldl_cons, List.map_cons]
    rw [← ih]
    congr 1
    rcases lt_or_le acc (g u) with h | h
    · rw [if_pos h, max_eq_right (le_of_lt h)]
    · rw [if_neg (not_lt.mpr h), max_eq_left h]

/-- C6 (amended): in the fuzzy branch (the term matches the value neither
exactly, nor by prefix, nor as a substring — the last condition implies the
other two), the per-term score is 0 for terms shorter than 3 characters and
otherwise equals the character-overlap fraction times 1/2, or 0 when the
fraction is below 1/2; the field's score is the running maximum, started at
0, over the query terms of the per-term score times `(1 + field.boost)`. -/
theorem fuzzy_branch_characterization (cfg : FuzzySearchConfig) (field : FieldConfig)
    (value t : String) (terms : List String)
    (hc : ¬ List.IsInfix (goToLower t).data (goToLower value).data) :
    termScore cfg (goToLower value) (goToLower t) =
      (if (goToLower t).length < 3 then 0
       else if charOverlap (goToLower value) (goToLower t) < 1/2 then 0
       else charOverlap (goToLower value) (goToLower t) * (1/2)) ∧
    calculateFieldScore cfg field value terms =
      (terms.map
        (fun u => termScore cfg (goToLower value) (goToLower u) * (1 + field.boost))).foldl
        (fun m x => max m x) 0 := by
  constructor
  · rw [termScore_fuzzy cfg _ _ hc]
    rfl
  · unfold calculateFieldScore
    exact foldl_max_eq
      (fun u => termScore cfg (goToLower value) (goToLower u) * (1 + field.boost)) terms 0

/-- Witness for `fuzzy_branch_characterization` at value `"xyz"`, term
`"abc"`, terms `["ab", "ba"]`. -/
theorem fuzzy_branch_characterization_witness :
    termScore defaultFuzzySearchConfig (goToLower "xyz") (goToLower "abc") =
      (if (goToLower "abc").length < 3 then 0
       else if charOverlap (goToLower "xyz") (goToLower "abc") < 1/2 then 0
       else charOverlap (goToLower "xyz") (goToLower "abc") * (1/2)) ∧
    calculateFieldScore defaultFuzzySearchConfig widgetField "xyz" ["ab", "ba"] =
      (["ab", "ba"].map
        (fun u => termScore defaultFuzzySearchConfig (goToLower "xyz") (goToLower u) *
          (1 + widgetField.boost))).foldl (fun m x => max m x) 0 :=
  fuzzy_branch_characterization defaultFuzzySearchConfig widgetField "xyz" "abc"
    ["ab", "ba"] (by decide)

/-- C6 counterexample: value `"ba"`, term `"ab"` reach the fuzzy branch with
character-overlap fraction 1 ≥ 1/2, yet the per-term score is 0 — not
`ratio * 0.5 = 1/2` — because `calculateFuzzyScore` returns 0 for every term
shorter than 3 characters, a cutoff the claim omits. -/
theorem fuzzy_short_term_counterexample :
    ¬ List.IsInfix ("ab" : String).data ("ba" : String).data ∧
    termScore defaultFuzzySearchConfig "ba" "ab" = 0 ∧
    charOverlap "ba" "ab" = 1 ∧
    termScore defaultFuzzySearchConfig "ba" "ab" ≠ charOverlap "ba" "ab" * (1/2) := by
  refine ⟨by decide, by decide, by decide, by decide⟩

/-- C7 (bug evidence): with the default configuration
(`caseSensitive = false`, `enableHighlight = true`), the value `"Acme"`
searched with term `"acme"` contains a case-insensitive occurrence, but
`highlightText` returns it unchanged — no `<mark>` is inserted — and
`generateHighlights` collects nothing: the check is case-insensitive but the
replacement is case-sensitive (`strings.ReplaceAll` with the original-case
term). -/
theorem highlight_case_insensitive_miss :
    defaultFuzzySearchConfig.caseSensitive = false ∧
    defaultFuzzySearchConfig.enableHighlight = true ∧
    strContains (goToLower "Acme") (goToLower "acme") = true ∧
    highlightText defaultFuzzySearchConfig "Acme" ["acme"] = "Acme" ∧
    generateHighlights defaultFuzzySearchConfig [widgetField] [("title", "Acme")]
      "acme" = [] ∧
    highlightText defaultFuzzySearchConfig "acme corp" ["acme"] =
      "<mark>acme</mark> corp" := by
  refine ⟨rfl, rfl, by decide, by decide, by decide, by decide⟩
